import Mathlib

/-!
Formal model of the RAG (Retrieval Augmented Generation) module of the
CoachX backend: the functions `load_knowledge_base`, `query_knowledge`,
`format_context_for_llm` from `backend/app/ai/rag.py`, and the FastAPI
`startup_event` from `backend/app/main.py`, as given in the repository's
RAG PRP document.

Modelling choices, faithful to the source:
* The LangChain `RecursiveCharacterTextSplitter.split_text` and the
  sentence-transformers `encode` are deterministic pure functions of their
  input; they are passed as parameters `split : String → List String` and
  `encode : String → List Int` (the code's batched
  `embedding_model.encode(documents)` maps `encode` over the batch).
* The ChromaDB client state is the presence/absence of the single
  collection `coachx_knowledge` together with its stored entries.
  `collection.query` is nearest-neighbour search: filter by the `where`
  metadata clause, order by ascending distance to the query embedding,
  return at most `n_results` entries.  Embedding components are modelled
  as integers; the metric is squared L2 distance.
* The knowledge tree is the directory walk the code performs: the code
  iterates `knowledge_base_path.iterdir()` skipping non-directories, so a
  tree is a list of sport directories; inside, `sport_dir.glob("*.md")`
  yields the markdown files, so a directory is a list of named files.  A
  file whose read (`open(...).read()`) raises is modelled with
  `content = none`.
* Python exceptions are modelled with explicit error values; since the
  code mutates the client before it can raise (the collection is created
  before the root-existence check and before the file loop), the result
  of ingestion is a pair of an optional error and the final client state.
-/

/-- Metadata stored with each chunk (`metadatas.append({...})` in
`load_knowledge_base`): sport (category), source file name, chunk index
and total chunk count of the source. -/
structure Metadata where
  sport : String
  source : String
  chunk_index : Nat
  total_chunks : Nat
  deriving DecidableEq, Repr

/-- One stored entry of the Chroma collection: id, document text,
embedding vector and metadata (the parallel lists passed to
`collection.add`). -/
structure ChunkEntry where
  id : String
  text : String
  embedding : List Int
  metadata : Metadata
  deriving DecidableEq, Repr

/-- The `coachx_knowledge` collection: its stored entries. -/
structure Collection where
  entries : List ChunkEntry
  deriving DecidableEq, Repr

/-- State of the ChromaDB client: `collection = none` means
`client.get_collection(COLLECTION_NAME)` raises. -/
structure ChromaState where
  collection : Option Collection
  deriving DecidableEq, Repr

/-- A source document inside a sport directory; `content = none` models a
file whose read raises (permission, encoding). -/
structure SourceFile where
  name : String
  content : Option String
  deriving DecidableEq, Repr

/-- One sport directory of the knowledge base with its `*.md` files. -/
structure SportDir where
  sport : String
  files : List SourceFile
  deriving DecidableEq, Repr

/-- Errors `load_knowledge_base` can raise: `FileNotFoundError` for the
missing root, or a read failure on a named file of a sport directory. -/
inductive LoadError where
  | rootNotFound : LoadError
  | readError : String → String → LoadError
  deriving DecidableEq, Repr

/-- `md_file.stem`: the file name without its final extension.  All files
come from `glob("*.md")`, so the stem drops the trailing `.md`
(3 characters). -/
def fileStem (name : String) : String := name.dropRight 3

/-- The chunk id built by `ids.append(f"{sport_name}_{md_file.stem}_{i}")`. -/
def mkChunkId (sport stem : String) (i : Nat) : String :=
  sport ++ "_" ++ stem ++ "_" ++ toString i

/-- A chunk prepared for insertion: the code's parallel `documents`,
`ids`, `metadatas` lists, zipped. -/
structure Pending where
  text : String
  id : String
  metadata : Metadata
  deriving DecidableEq, Repr

/-- The per-file inner loop of `load_knowledge_base`: split the content
into chunks and build one pending record per chunk. -/
def chunkPending (split : String → List String) (sport : String)
    (fname : String) (content : String) : List Pending :=
  let chunks := split content
  chunks.enum.map (fun p =>
    { text := p.2
      id := mkChunkId sport (fileStem fname) p.1
      metadata :=
        { sport := sport, source := fname
          chunk_index := p.1, total_chunks := chunks.length } })

/-- The file loop over one sport directory; a failing read raises out of
the whole function, so it aborts the walk with the error. -/
def walkFiles (split : String → List String) (sport : String) :
    List SourceFile → Except LoadError (List Pending)
  | [] => Except.ok []
  | f :: fs =>
    match f.content with
    | none => Except.error (LoadError.readError sport f.name)
    | some content =>
      match walkFiles split sport fs with
      | Except.error e => Except.error e
      | Except.ok rest => Except.ok (chunkPending split sport f.name content ++ rest)

/-- The outer loop of `load_knowledge_base` over all sport directories. -/
def walkTree (split : String → List String) :
    List SportDir → Except LoadError (List Pending)
  | [] => Except.ok []
  | d :: ds =>
    match walkFiles split d.sport d.files with
    | Except.error e => Except.error e
    | Except.ok here =>
      match walkTree split ds with
      | Except.error e => Except.error e
      | Except.ok rest => Except.ok (here ++ rest)

/-- Embed one pending chunk and build the stored entry
(`collection.add` with the embeddings from `embedding_model.encode`). -/
def mkEntry (encode : String → List Int) (p : Pending) : ChunkEntry :=
  { id := p.id, text := p.text, embedding := encode p.text, metadata := p.metadata }

/-- `load_knowledge_base(force_reload)` from `rag.py`.

Control flow of the source: if `get_collection` succeeds and
`force_reload` is false it logs the count and returns (no state change);
otherwise the collection is deleted (if it existed) and re-created empty,
and only then the root path is checked (raising `FileNotFoundError` if
missing) and the directories are walked; a read failure raises out of the
function before anything was added, leaving the freshly created
collection empty; on success the accumulated chunks are embedded and
added in one `collection.add` call. -/
def load_knowledge_base (split : String → List String) (encode : String → List Int)
    (st : ChromaState) (tree : List SportDir) (force_reload : Bool)
    (rootExists : Bool) : Option LoadError × ChromaState :=
  match st.collection, force_reload with
  | some _, false => (none, st)
  | _, _ =>
    if rootExists then
      match walkTree split tree with
      | Except.error e => (some e, { collection := some { entries := [] } })
      | Except.ok pending =>
        (none, { collection := some { entries := pending.map (mkEntry encode) } })
    else (some LoadError.rootNotFound, { collection := some { entries := [] } })

/-- The chunk ids currently stored (empty when the collection does not
exist). -/
def chunkIds (st : ChromaState) : List String :=
  match st.collection with
  | none => []
  | some c => c.entries.map (fun e => e.id)

/-- A query result as assembled in `query_knowledge`'s formatting loop:
`{'text': ..., 'metadata': ..., 'distance': ...}`. -/
structure QueryResult where
  text : String
  metadata : Metadata
  distance : Int
  deriving DecidableEq, Repr

/-- Squared L2 distance between embedding vectors, ChromaDB's default
metric (components modelled as integers). -/
def sqDist (a b : List Int) : Int :=
  (a.zip b).foldl (fun acc p => acc + (p.1 - p.2) * (p.1 - p.2)) 0

/-- The `where` clause built by
`where_filter = {"sport": sport} if sport else None`: Python truthiness
drops the filter both when `sport` is `None` and when it is the empty
string. -/
def whereFilter (sport : Option String) : Option String :=
  match sport with
  | none => none
  | some s => if s = "" then none else some s

/-- Whether a stored chunk's metadata passes the `where` clause. -/
def matchesWhere (w : Option String) (m : Metadata) : Bool :=
  match w with
  | none => true
  | some s => m.sport = s

/-- Everything observable about one `query_knowledge` call: the returned
result list, the texts passed to `embedding_model.encode` (the code
encodes `[query]` after `get_collection` succeeded, and encodes nothing
when it raised), and the `n_results` value forwarded to
`collection.query` (`none` when the store was never queried). -/
structure QueryTrace where
  results : List QueryResult
  embeddedTexts : List String
  nResultsRequested : Option Nat
  deriving DecidableEq, Repr

/-- `query_knowledge(query, sport, top_k)` from `rag.py`, instrumented
with the trace fields above.

Control flow of the source: `get_collection` first — on failure the
function logs and returns `[]` (no embedding is computed); otherwise the
query is embedded, the `where` filter is built by truthiness, and
`collection.query` is called with `n_results=top_k`: ChromaDB filters the
stored chunks on the metadata clause, orders them by ascending distance
to the query embedding and returns at most `n_results` of them; the
result lists are then zipped into dictionaries. -/
def query_knowledge_traced (st : ChromaState) (encode : String → List Int)
    (query : String) (sport : Option String) (top_k : Nat) : QueryTrace :=
  match st.collection with
  | none => { results := [], embeddedTexts := [], nResultsRequested := none }
  | some col =>
    let qEmb := encode query
    let w := whereFilter sport
    let matching := col.entries.filter (fun e => matchesWhere w e.metadata)
    let scored := matching.map (fun e =>
      ({ text := e.text, metadata := e.metadata
         distance := sqDist qEmb e.embedding } : QueryResult))
    let sorted := List.insertionSort (fun a b => a.distance ≤ b.distance) scored
    { results := sorted.take top_k
      embeddedTexts := [query]
      nResultsRequested := some top_k }

/-- The value `query_knowledge` returns to its caller: just the result
list (the trace fields are not caller-visible). -/
def query_knowledge (st : ChromaState) (encode : String → List Int)
    (query : String) (sport : Option String) (top_k : Nat) : List QueryResult :=
  (query_knowledge_traced st encode query sport top_k).results

/-- Number of stored chunks passing the `where` clause the call builds. -/
def matchCount (st : ChromaState) (sport : Option String) : Nat :=
  match st.collection with
  | none => 0
  | some col => (col.entries.filter (fun e => matchesWhere (whereFilter sport) e.metadata)).length

/-- Python's `sep.join(parts)`. -/
def joinSep (sep : String) : List String → String
  | [] => ""
  | [a] => a
  | a :: b :: rest => a ++ sep ++ joinSep sep (b :: rest)

/-- `format_context_for_llm(results)` from `rag.py`: the sentinel for an
empty list, otherwise the 1-based numbered entries
`[i] Source: sport/source⏎text` joined by a blank line
(`"\n\n".join(context_parts)`). -/
def format_context_for_llm (results : List QueryResult) : String :=
  match results with
  | [] => "No relevant information found."
  | _ =>
    joinSep "\n\n"
      (results.enum.map (fun p =>
        "[" ++ toString (p.1 + 1) ++ "] Source: " ++ p.2.metadata.sport ++ "/"
          ++ p.2.metadata.source ++ "\n" ++ p.2.text))

/-- The rendering the spec prescribes for the `i`-th (1-based) result:
one numbered entry carrying the category/source citation followed by the
text. -/
def specEntry (i : Nat) (r : QueryResult) : String :=
  "[" ++ toString i ++ "] Source: " ++ r.metadata.sport ++ "/"
    ++ r.metadata.source ++ "\n" ++ r.text

/-- The spec-side rendering of a result sequence: numbered entries
starting at `i`, in input order. -/
def specEntries : Nat → List QueryResult → List String
  | _, [] => []
  | i, r :: rs => specEntry i r :: specEntries (i + 1) rs

/-- Outcome of the FastAPI startup event (`backend/app/main.py`):
whether the RAG load succeeded, whether the application went on to serve
requests, and the resulting client state. -/
structure StartupOutcome where
  ragLoaded : Bool
  serving : Bool
  chroma : ChromaState
  deriving DecidableEq, Repr

/-- `startup_event` from `backend/app/main.py`: `create_tables()`, then
`load_knowledge_base(force_reload=False)` inside a `try` whose `except`
logs "Application will continue without RAG system"; startup then
completes and the application serves requests in either case. -/
def startup_event (split : String → List String) (encode : String → List Int)
    (st : ChromaState) (tree : List SportDir) (rootExists : Bool) : StartupOutcome :=
  match load_knowledge_base split encode st tree false rootExists with
  | (none, st2) => { ragLoaded := true, serving := true, chroma := st2 }
  | (some _, st2) => { ragLoaded := false, serving := true, chroma := st2 }

/-- The relation ChromaDB orders results by (ascending distance) is
total. -/
instance : IsTotal QueryResult (fun a b => a.distance ≤ b.distance) :=
  ⟨fun a b => Int.le_total a.distance b.distance⟩

/-- The relation ChromaDB orders results by (ascending distance) is
transitive. -/
instance : IsTrans QueryResult (fun a b => a.distance ≤ b.distance) :=
  ⟨fun _ _ _ h1 h2 => le_trans h1 h2⟩

/-- A sample stored chunk, used by the concrete witnesses below. -/
def sampleChunk : ChunkEntry :=
  { id := "boxing_a_0", text := "t", embedding := [1]
    metadata := { sport := "boxing", source := "a.md"
                  chunk_index := 0, total_chunks := 1 } }

/-- A client state whose collection holds exactly `sampleChunk`. -/
def sampleState : ChromaState :=
  { collection := some { entries := [sampleChunk] } }

/-- A sample query result, used by the concrete witnesses below. -/
def sampleResult : QueryResult :=
  { text := "t", metadata := sampleChunk.metadata, distance := 1 }

/-- A one-sport, one-readable-document knowledge tree. -/
def sampleTree : List SportDir :=
  [{ sport := "boxing", files := [{ name := "a.md", content := some "hello" }] }]

/-- The chunk that ingesting `sampleTree` stores (split = identity
chunking, zero embedding). -/
def sampleLoadedChunk : ChunkEntry :=
  { id := "boxing_a_0", text := "hello", embedding := [0]
    metadata := { sport := "boxing", source := "a.md"
                  chunk_index := 0, total_chunks := 1 } }

/-- The client state ingesting `sampleTree` produces. -/
def sampleLoadedState : ChromaState :=
  { collection := some { entries := [sampleLoadedChunk] } }

/-- A tree whose sport directory holds one readable and one unreadable
document. -/
def mixedTree : List SportDir :=
  [{ sport := "boxing"
     files := [{ name := "a.md", content := some "text" },
               { name := "b.md", content := none }] }]

/-- C1: Ingestion is idempotent: for every knowledge-base tree, if
`force_reload` is false and the collection already reports a non-zero
chunk count, `load_knowledge_base` returns without error and without any
change to the client state, so a second run against an unchanged source
tree leaves the stored chunk count and chunk ids exactly as the first run
left them. -/
theorem load_knowledge_base_idempotent
    (split : String → List String) (encode : String → List Int)
    (st : ChromaState) (tree : List SportDir) (rootExists : Bool)
    (c : Collection) (hc : st.collection = some c) (_hn : 0 < c.entries.length) :
    load_knowledge_base split encode st tree false rootExists = (none, st) := by
  unfold load_knowledge_base
  rw [hc]

/-- Concrete instantiation of C1: a state holding one chunk is returned
unchanged by a non-forced reload. -/
theorem load_knowledge_base_idempotent_witness :
    sampleState.collection = some { entries := [sampleChunk] } ∧
    load_knowledge_base (fun s => [s]) (fun _ => [0]) sampleState [] false true
      = (none, sampleState) :=
  ⟨rfl, load_knowledge_base_idempotent _ _ _ _ _ _ rfl (by decide)⟩

/-- C2 counterexample: with the knowledge root missing,
`load_knowledge_base` raises `FileNotFoundError`, yet `startup_event`
catches it ("Application will continue without RAG system"), startup
completes and the application proceeds to serve queries. -/
theorem startup_serves_despite_missing_root :
    (load_knowledge_base (fun s => [s]) (fun _ => [0])
        { collection := none } [] false false).1 = some LoadError.rootNotFound ∧
    (startup_event (fun s => [s]) (fun _ => [0])
        { collection := none } [] false).serving = true ∧
    (startup_event (fun s => [s]) (fun _ => [0])
        { collection := none } [] false).ragLoaded = false :=
  ⟨rfl, rfl, rfl⟩

/-- C2 (amended): startup never halts on a knowledge-base fault:
`startup_event` always ends with the application serving, and the RAG
system is marked loaded exactly when the non-forced
`load_knowledge_base` call returned without error. -/
theorem startup_event_always_serves
    (split : String → List String) (encode : String → List Int)
    (st : ChromaState) (tree : List SportDir) (rootExists : Bool) :
    (startup_event split encode st tree rootExists).serving = true ∧
    ((startup_event split encode st tree rootExists).ragLoaded = true ↔
      (load_knowledge_base split encode st tree false rootExists).1 = none) := by
  unfold startup_event
  cases h : load_knowledge_base split encode st tree false rootExists with
  | mk e st2 => cases e <;> simp

/-- C7 counterexample: an empty and a whitespace-only query are not
rejected: `query_knowledge` invokes the embedding model on them and
returns results as for any other query. -/
theorem empty_query_embedded :
    (query_knowledge_traced sampleState (fun _ => [0]) "" none 3).embeddedTexts = [""] ∧
    (query_knowledge_traced sampleState (fun _ => [0]) "   " none 3).embeddedTexts = ["   "] ∧
    query_knowledge sampleState (fun _ => [0]) "" none 3 = [sampleResult] :=
  ⟨rfl, rfl, rfl⟩

/-- C7 (amended): `query_knowledge` performs no validation of the query
text: whenever the collection opens, the embedding model is invoked on
exactly the given query text — empty or whitespace-only included. -/
theorem query_knowledge_always_embeds
    (st : ChromaState) (encode : String → List Int) (query : String)
    (sport : Option String) (top_k : Nat) (c : Collection)
    (hc : st.collection = some c) :
    (query_knowledge_traced st encode query sport top_k).embeddedTexts = [query] := by
  unfold query_knowledge_traced
  rw [hc]

/-- Concrete instantiation of the amended C7: with the sample store the
empty query is embedded as-is. -/
theorem query_knowledge_always_embeds_witness :
    sampleState.collection = some { entries := [sampleChunk] } ∧
    (query_knowledge_traced sampleState (fun _ => [0]) "" (some "boxing") 3).embeddedTexts
      = [""] :=
  ⟨rfl, query_knowledge_always_embeds _ _ _ _ _ _ rfl⟩

/-- C9 counterexample: when the collection cannot be opened,
`query_knowledge` returns `[]` — byte-for-byte the value an ordinary
query with no matching chunks returns — so the caller cannot distinguish
the two. -/
theorem missing_collection_looks_like_no_results :
    query_knowledge { collection := none } (fun _ => [0]) "q" none 3 = [] ∧
    query_knowledge { collection := some { entries := [] } } (fun _ => [0]) "q" none 3 = [] :=
  ⟨rfl, rfl⟩

/-- C9 (amended): when `get_collection` raises at query time,
`query_knowledge` logs the error and returns the empty list (computing
no embedding); no typed failure reaches the caller. -/
theorem query_knowledge_missing_collection_empty
    (encode : String → List Int) (query : String) (sport : Option String)
    (top_k : Nat) :
    query_knowledge { collection := none } encode query sport top_k = [] ∧
    (query_knowledge_traced { collection := none } encode query sport top_k).embeddedTexts
      = [] :=
  ⟨rfl, rfl⟩

/-- C10 counterexample: `top_k = 0` — not a positive integer — is
accepted: the query is embedded and `n_results=0` is forwarded; and a
huge `top_k` is forwarded unchanged, with no ceiling clamp. -/
theorem topk_not_validated_not_clamped :
    (query_knowledge_traced sampleState (fun _ => [0]) "q" none 0).embeddedTexts = ["q"] ∧
    (query_knowledge_traced sampleState (fun _ => [0]) "q" none 0).nResultsRequested = some 0 ∧
    (query_knowledge_traced sampleState (fun _ => [0]) "q" none 1000000).nResultsRequested
      = some 1000000 :=
  ⟨rfl, rfl, rfl⟩

/-- C10 (amended): `query_knowledge` neither validates nor clamps
`top_k`: whenever the collection opens, the raw `top_k` is forwarded
unchanged as `n_results` to the store. -/
theorem query_knowledge_topk_passthrough
    (st : ChromaState) (encode : String → List Int) (query : String)
    (sport : Option String) (top_k : Nat) (c : Collection)
    (hc : st.collection = some c) :
    (query_knowledge_traced st encode query sport top_k).nResultsRequested = some top_k := by
  unfold query_knowledge_traced
  rw [hc]

/-- Concrete instantiation of the amended C10: the sample store forwards
`top_k = 7` unchanged. -/
theorem query_knowledge_topk_passthrough_witness :
    sampleState.collection = some { entries := [sampleChunk] } ∧
    (query_knowledge_traced sampleState (fun _ => [0]) "q" none 7).nResultsRequested
      = some 7 :=
  ⟨rfl, query_knowledge_topk_passthrough _ _ _ _ _ _ rfl⟩

/-- C8 counterexample: a tree with one readable document (`a.md`) and
one unreadable document (`b.md`) makes `load_knowledge_base` fail as a
whole: the read error propagates out and not even the readable
document's chunks are stored — the freshly created collection stays
empty. -/
theorem unreadable_file_aborts_ingestion :
    load_knowledge_base (fun s => [s]) (fun _ => [0]) { collection := none } mixedTree false true
      = (some (LoadError.readError "boxing" "b.md"), { collection := some { entries := [] } }) :=
  rfl

/-- C8 (amended): a source file that fails to read is not skipped: the
exception raises out of `load_knowledge_base`, aborting ingestion before
anything is added, and the collection is left created but empty; only
the startup-level catch keeps the process running. -/
theorem load_knowledge_base_read_failure_aborts
    (split : String → List String) (encode : String → List Int)
    (tree : List SportDir) (e : LoadError)
    (h : walkTree split tree = Except.error e) :
    load_knowledge_base split encode { collection := none } tree false true
      = (some e, { collection := some { entries := [] } }) := by
  unfold load_knowledge_base
  simp [h]

/-- Concrete instantiation of the amended C8 on `mixedTree`. -/
theorem load_knowledge_base_read_failure_aborts_witness :
    walkTree (fun s => [s]) mixedTree = Except.error (LoadError.readError "boxing" "b.md") ∧
    load_knowledge_base (fun s => [s]) (fun _ => [1]) { collection := none } mixedTree false true
      = (some (LoadError.readError "boxing" "b.md"), { collection := some { entries := [] } }) :=
  ⟨rfl, load_knowledge_base_read_failure_aborts _ _ _ _ rfl⟩

/-- Helper: with an open collection, `query_knowledge` returns the
filtered, distance-sorted, truncated result list. -/
theorem query_results_eq
    (st : ChromaState) (encode : String → List Int) (query : String)
    (sport : Option String) (top_k : Nat) (col : Collection)
    (h : st.collection = some col) :
    query_knowledge st encode query sport top_k =
      (List.insertionSort (fun a b : QueryResult => a.distance ≤ b.distance)
        ((col.entries.filter (fun e => matchesWhere (whereFilter sport) e.metadata)).map
          (fun e => { text := e.text, metadata := e.metadata
                      distance := sqDist (encode query) e.embedding }))).take top_k := by
  unfold query_knowledge query_knowledge_traced
  rw [h]

/-- C3 counterexample: the filter value `""` is dropped by Python
truthiness (`if sport`), so a query issued with the empty-string sport
filter returns a chunk of category `"boxing"` — a category different
from the filter value. -/
theorem empty_filter_returns_other_category :
    (query_knowledge sampleState (fun _ => [0]) "q" (some "") 3).map (fun r => r.metadata.sport)
      = ["boxing"] ∧ ("boxing" : String) ≠ "" :=
  ⟨rfl, by decide⟩

/-- C3 (amended): category isolation holds for every NONEMPTY filter
value: for every query issued with a nonempty sport filter, every
returned result's sport metadata equals the filter value, regardless of
the stored chunks, the query text and the embedding. -/
theorem query_category_isolation
    (st : ChromaState) (encode : String → List Int) (query : String)
    (s : String) (top_k : Nat) (hs : s ≠ "") :
    ∀ r ∈ query_knowledge st encode query (some s) top_k, r.metadata.sport = s := by
  intro r hr
  cases h : st.collection with
  | none =>
    rw [query_knowledge, query_knowledge_traced, h] at hr
    simp at hr
  | some col =>
    rw [query_results_eq st encode query (some s) top_k col h] at hr
    have h1 := (List.take_sublist top_k _).subset hr
    have h2 := (List.perm_insertionSort
      (fun a b : QueryResult => a.distance ≤ b.distance) _).mem_iff.mp h1
    obtain ⟨e, he, rfl⟩ := List.mem_map.mp h2
    have h3 := (List.mem_filter.mp he).2
    rw [whereFilter, if_neg hs] at h3
    exact of_decide_eq_true h3

/-- Concrete instantiation of the amended C3 at the filter `"boxing"`. -/
theorem query_category_isolation_witness :
    (("boxing" : String) ≠ "") ∧
    ∀ r ∈ query_knowledge sampleState (fun _ => [0]) "q" (some "boxing") 3,
      r.metadata.sport = "boxing" :=
  ⟨by decide, query_category_isolation _ _ _ _ _ (by decide)⟩

/-- C4: every `query_knowledge` call returns at most `top_k` results, at
most as many results as there are chunks matching the filter, in
non-decreasing distance order, and when fewer than `top_k` chunks match
the filter it returns exactly all matches — no padding, and (the model
being a total function) no error. -/
theorem query_knowledge_topk_order
    (st : ChromaState) (encode : String → List Int) (query : String)
    (sport : Option String) (top_k : Nat) :
    (query_knowledge st encode query sport top_k).length ≤ top_k ∧
    (query_knowledge st encode query sport top_k).length ≤ matchCount st sport ∧
    List.Sorted (fun a b : QueryResult => a.distance ≤ b.distance)
      (query_knowledge st encode query sport top_k) ∧
    (matchCount st sport < top_k →
      (query_knowledge st encode query sport top_k).length = matchCount st sport) := by
  cases h : st.collection with
  | none =>
    rw [query_knowledge, query_knowledge_traced, h]
    simp [matchCount, h]
  | some col =>
    have hm : matchCount st sport
        = (col.entries.filter (fun e => matchesWhere (whereFilter sport) e.metadata)).length := by
      simp [matchCount, h]
    rw [query_results_eq st encode query sport top_k col h, hm]
    refine ⟨?_, ?_, ?_, ?_⟩
    · simp [List.length_take]
    · simp [List.length_take, List.length_insertionSort, List.length_map]
    · exact List.Pairwise.sublist (List.take_sublist _ _)
        (List.sorted_insertionSort (fun a b : QueryResult => a.distance ≤ b.distance) _)
    · intro hlt
      simp only [List.length_take, List.length_insertionSort, List.length_map]
      omega

/-- Concrete instantiation of C4: the sample store has a single matching
chunk, fewer than `top_k = 5`, and exactly that one match is returned. -/
theorem query_knowledge_topk_order_witness :
    matchCount sampleState none < 5 ∧
    (query_knowledge sampleState (fun _ => [0]) "q" none 5).length
      = matchCount sampleState none :=
  ⟨by decide,
    (query_knowledge_topk_order sampleState (fun _ => [0]) "q" none 5).2.2.2 (by decide)⟩

/-- Helper: every pending chunk of one file carries the id determined by
its own metadata triple. -/
theorem chunkPending_id (split : String → List String) (sport fname content : String) :
    ∀ p ∈ chunkPending split sport fname content,
      p.id = mkChunkId p.metadata.sport (fileStem p.metadata.source) p.metadata.chunk_index := by
  intro p hp
  obtain ⟨q, _, rfl⟩ := List.mem_map.mp hp
  rfl

/-- Helper: all chunks collected from one sport directory carry the id
determined by their metadata triple. -/
theorem walkFiles_id (split : String → List String) (sport : String)
    (files : List SourceFile) (l : List Pending)
    (h : walkFiles split sport files = Except.ok l) :
    ∀ p ∈ l,
      p.id = mkChunkId p.metadata.sport (fileStem p.metadata.source) p.metadata.chunk_index := by
  induction files generalizing l with
  | nil =>
    rw [walkFiles] at h
    obtain rfl : ([] : List Pending) = l := by simpa using h
    intro p hp
    simp at hp
  | cons f fs ih =>
    rw [walkFiles] at h
    cases hc : f.content with
    | none => rw [hc] at h; simp at h
    | some content =>
      rw [hc] at h
      cases hw : walkFiles split sport fs with
      | error e => rw [hw] at h; simp at h
      | ok rest =>
        rw [hw] at h
        obtain rfl : chunkPending split sport f.name content ++ rest = l := by simpa using h
        intro p hp
        rcases List.mem_append.mp hp with h1 | h2
        · exact chunkPending_id split sport f.name content p h1
        · exact ih rest hw p h2

/-- Helper: all chunks collected by a successful walk of the whole tree
carry the id determined by their metadata triple. -/
theorem walkTree_id (split : String → List String)
    (tree : List SportDir) (l : List Pending)
    (h : walkTree split tree = Except.ok l) :
    ∀ p ∈ l,
      p.id = mkChunkId p.metadata.sport (fileStem p.metadata.source) p.metadata.chunk_index := by
  induction tree generalizing l with
  | nil =>
    rw [walkTree] at h
    obtain rfl : ([] : List Pending) = l := by simpa using h
    intro p hp
    simp at hp
  | cons d ds ih =>
    rw [walkTree] at h
    cases hf : walkFiles split d.sport d.files with
    | error e => rw [hf] at h; simp at h
    | ok here =>
      rw [hf] at h
      cases hw : walkTree split ds with
      | error e => rw [hw] at h; simp at h
      | ok rest =>
        rw [hw] at h
        obtain rfl : here ++ rest = l := by simpa using h
        intro p hp
        rcases List.mem_append.mp hp with h1 | h2
        · exact walkFiles_id split d.sport d.files here hf p h1
        · exact ih rest hw p h2

/-- C5: chunk identity is deterministic: after a successful first
ingestion of a tree, every stored chunk's id is
`mkChunkId category (stem source_name) chunk_index` — a function of only
the `(category, source_name, chunk_index)` triple — and a forced
re-ingestion of the same tree reproduces exactly the same client state,
hence identical chunk ids. -/
theorem chunk_identity_deterministic
    (split : String → List String) (encode : String → List Int)
    (tree : List SportDir) (st1 : ChromaState)
    (h1 : load_knowledge_base split encode { collection := none } tree false true
      = (none, st1)) :
    load_knowledge_base split encode st1 tree true true = (none, st1) ∧
    ∀ c, st1.collection = some c → ∀ e ∈ c.entries,
      e.id = mkChunkId e.metadata.sport (fileStem e.metadata.source) e.metadata.chunk_index := by
  unfold load_knowledge_base at h1
  cases hw : walkTree split tree with
  | error e => rw [hw] at h1; simp at h1
  | ok pending =>
    rw [hw] at h1
    simp at h1
    obtain rfl := h1.symm
    constructor
    · unfold load_knowledge_base
      simp [hw]
    · intro c hc e he
      simp only [Option.some.injEq] at hc
      rw [← hc] at he
      simp only [] at he
      obtain ⟨p, hp, rfl⟩ := List.mem_map.mp he
      exact walkTree_id split tree pending hw p hp

/-- Concrete instantiation of C5 on `sampleTree`. -/
theorem chunk_identity_deterministic_witness :
    load_knowledge_base (fun s => [s]) (fun _ => [0]) { collection := none } sampleTree false true
      = (none, sampleLoadedState) ∧
    (load_knowledge_base (fun s => [s]) (fun _ => [0]) sampleLoadedState sampleTree true true
        = (none, sampleLoadedState) ∧
      ∀ c, sampleLoadedState.collection = some c → ∀ e ∈ c.entries,
        e.id = mkChunkId e.metadata.sport (fileStem e.metadata.source) e.metadata.chunk_index) :=
  ⟨by decide, chunk_identity_deterministic _ _ _ _ (by decide)⟩

/-- Helper: mapping the code's enumeration-based rendering over a result
list yields the spec-side numbered entries. -/
theorem enumFrom_map_specEntries (rs : List QueryResult) :
    ∀ i : Nat, (List.enumFrom i rs).map (fun p =>
        "[" ++ toString (p.1 + 1) ++ "] Source: " ++ p.2.metadata.sport ++ "/"
          ++ p.2.metadata.source ++ "\n" ++ p.2.text)
      = specEntries (i + 1) rs := by
  induction rs with
  | nil => intro i; rfl
  | cons r rs ih =>
    intro i
    simp only [List.enumFrom, List.map_cons]
    rw [ih (i + 1)]
    rfl

/-- Helper: a rendered entry is never the empty string (it starts with
the bracketed number). -/
theorem specEntry_length_pos (i : Nat) (r : QueryResult) : 0 < (specEntry i r).length := by
  have h1 : (("[" : String)).length = 1 := rfl
  simp only [specEntry, String.length_append, h1]
  omega

/-- Helper: joining a nonempty list of parts is at least as long as its
first part. -/
theorem joinSep_head_length_le (sep : String) (a : String) (l : List String) :
    a.length ≤ (joinSep sep (a :: l)).length := by
  cases l with
  | nil => simp [joinSep]
  | cons b bs =>
    simp only [joinSep, String.length_append]
    omega

/-- C6: `format_context_for_llm` renders the empty result sequence to
the explicit sentinel `"No relevant information found."`; it renders a
nonempty result sequence as the numbered entries (citation then text, in
input order) joined by a blank line; and its output is never the empty
string. -/
theorem format_context_spec (results : List QueryResult) :
    (results = [] → format_context_for_llm results = "No relevant information found.") ∧
    (results ≠ [] → format_context_for_llm results = joinSep "\n\n" (specEntries 1 results)) ∧
    format_context_for_llm results ≠ "" := by
  cases results with
  | nil =>
    refine ⟨fun _ => rfl, fun h => absurd rfl h, by decide⟩
  | cons r rs =>
    have heq : format_context_for_llm (r :: rs) = joinSep "\n\n" (specEntries 1 (r :: rs)) := by
      unfold format_context_for_llm
      simp only []
      have : (r :: rs).enum = List.enumFrom 0 (r :: rs) := rfl
      rw [this, enumFrom_map_specEntries (r :: rs) 0]
    refine ⟨fun h => by simp at h, fun _ => heq, ?_⟩
    rw [heq]
    intro hcontra
    have h1 : specEntries 1 (r :: rs) = specEntry 1 r :: specEntries 2 rs := rfl
    have h2 := joinSep_head_length_le "\n\n" (specEntry 1 r) (specEntries 2 rs)
    rw [h1] at hcontra
    rw [hcontra] at h2
    have h3 := specEntry_length_pos 1 r
    simp at h2
    omega

/-- Concrete instantiation of C6 on a one-element result list. -/
theorem format_context_spec_witness :
    ([sampleResult] ≠ ([] : List QueryResult)) ∧
    format_context_for_llm [sampleResult] = joinSep "\n\n" (specEntries 1 [sampleResult]) :=
  ⟨List.cons_ne_nil _ _, (format_context_spec [sampleResult]).2.1 (List.cons_ne_nil _ _)⟩
